import Mathlib

/-!
Verification of the offline data/cache subsystem of the quranicexplorer
web client (src/src/lib/schemas.ts, src/src/lib/storage.ts,
src/src/lib/api.ts, src/src/hooks/useQuran.ts,
src/src/pages/BookmarksPage.tsx).

The TypeScript sources are shallowly embedded:
* IndexedDB object stores become Lean lists with explicit upsert-by-key
  semantics (IndexedDB `put`) and the singleton-row stores become
  `Option` values; every storage-touching function takes the store as an
  argument and returns the new store.
* `Array.prototype.sort` with a consistent comparator is, per the
  ECMAScript spec, a stable sort; it is modelled by `List.insertionSort`
  (stable, structurally recursive, hence kernel-computable).
* JavaScript string built-ins (`trim`, `toLowerCase`, `split`,
  `includes`, `parseInt`) are modelled over `List Char`; the repository's
  regex pipelines whose details no claim depends on (the HTML-stripping
  part of `sanitizeText`, zod's `.url()` and `.datetime()` string checks,
  `new Date(..).getTime()`) are taken as explicit function parameters of
  the model, instantiated with concrete functions in concrete runs.
* Promise rejection / thrown exceptions become `Except`; a thrown plain
  `new Error(msg)` and a thrown structured `AppError` are kept distinct
  by the `JsError` sum.
-/

namespace Quranic

/-! ## JavaScript primitives -/

/-- Model of the JavaScript whitespace test used by `String.prototype.trim`
(ASCII fragment). -/
def jsWhitespace (c : Char) : Bool := c.isWhitespace

/-- Model of `s.trim()`. -/
def jsTrim (s : String) : String :=
  (((s.data.dropWhile jsWhitespace).reverse.dropWhile jsWhitespace).reverse).asString

/-- Model of `s.toLowerCase()` (ASCII fragment). -/
def jsToLower (s : String) : String := (s.data.map Char.toLower).asString

/-- Model of `s.split(sep)` for a single-character separator. -/
def jsSplitOn (sep : Char) (s : String) : List String :=
  (List.splitOn sep s.data).map List.asString

/-- Helper for `jsStrIncludes`: does `needle` occur as a contiguous
subsequence of `hay`? -/
def strContainsSeq (hay needle : List Char) : Bool :=
  match hay with
  | [] => needle.isPrefixOf []
  | c :: t => needle.isPrefixOf (c :: t) || strContainsSeq t needle

/-- Model of `s.includes(sub)`. -/
def jsStrIncludes (s sub : String) : Bool := strContainsSeq s.data sub.data

/-- Numeric value of a list of decimal digits. -/
def digitsToNat (ds : List Char) : Nat :=
  ds.foldl (fun acc c => 10 * acc + (c.toNat - 48)) 0

/-- Model of `parseInt(s)` (decimal form: optional sign, leading digits;
`none` models `NaN`). -/
def jsParseInt (s : String) : Option Int :=
  let cs := s.data.dropWhile jsWhitespace
  let signed : Int × List Char :=
    match cs with
    | '-' :: r => (-1, r)
    | '+' :: r => (1, r)
    | _ => (1, cs)
  let ds := signed.2.takeWhile Char.isDigit
  if ds = [] then none else some (signed.1 * (digitsToNat ds : Int))

/-- Model of `parseInt(s) || 0` (`NaN` is falsy, so it becomes `0`). -/
def jsParseIntOr0 (s : String) : Int := (jsParseInt s).getD 0

/-- Model of `a || b` on an optional string (`undefined` and `''` are
falsy). -/
def jsOrOptStr : Option String → Option String → Option String
  | some s, b => if s = "" then b else some s
  | none, b => b

/-! ## JSON values

`JSON.stringify`/`JSON.parse` round-trips of in-memory data are modelled
by passing the JSON tree itself; `none` at a `Option Json` input models
text that `JSON.parse` rejects. `JSON.stringify` omits object entries
whose value is `undefined`, which the embedding mirrors by omitting the
corresponding field. -/

inductive Json where
  | null
  | bool (b : Bool)
  | num (q : ℚ)
  | str (s : String)
  | arr (elems : List Json)
  | obj (fields : List (String × Json))

/-! ## schemas.ts — domain model -/

/-- Canonical Ayah record (`AyahSchema`). -/
structure Ayah where
  surahNumber : Nat
  ayahNumber : Nat
  globalAyahNumber : Nat
  arabicText : String
  englishText : Option String
  urduText : Option String
  audioUrl : Option String
  juzNumber : Nat
  pageNumber : Option Nat
deriving DecidableEq

/-- Bookmark record (`BookmarkSchema`). -/
structure Bookmark where
  surahNumber : Nat
  ayahNumber : Nat
  timestamp : String
deriving DecidableEq

/-- Last-read position inside `Progress`. -/
structure LastRead where
  surahNumber : Nat
  ayahNumber : Nat
  timestamp : String
deriving DecidableEq

/-- Progress record (`ProgressSchema`). -/
structure Progress where
  perSurahProgress : List (String × Int)
  overallCompletion : Int
  lastRead : Option LastRead
deriving DecidableEq

inductive SettingsLanguage | ar | en | ur
deriving DecidableEq

inductive SettingsTheme | light | dark
deriving DecidableEq

/-- Settings record (`SettingsSchema`); `extras` holds the passthrough
`custom_*` extension fields. -/
structure Settings where
  language : SettingsLanguage
  showTranslations : Bool
  fontSizePx : Int
  theme : SettingsTheme
  preferredReciter : String
  playbackSpeed : ℚ
  extras : List (String × Json)

/-- Uniform error envelope (`ErrorSchema`). The `details` payload (the
caught underlying exception, type `unknown`) carries no information any
claim depends on and is not modelled. -/
structure AppError where
  errorCode : String
  message : String
  recoverable : Bool
deriving DecidableEq

/-- `createError(code, message, details, recoverable)` from schemas.ts. -/
def createError (errorCode message : String) (recoverable : Bool) : AppError :=
  { errorCode := errorCode, message := message, recoverable := recoverable }

/-- A thrown JavaScript value: either a plain `new Error(message)` or a
structured `AppError`. -/
inductive JsError where
  | plainError (message : String)
  | appError (e : AppError)
deriving DecidableEq

/-! ## storage.ts — IndexedDB-backed local store

The `ayahs` store is keyed by `[surahNumber, ayahNumber]`; `put`
replaces the record with the same key or inserts a new one, so a store
list built through `putAyah` keeps its keys unique. -/

def ayahKey (a : Ayah) : Nat × Nat := (a.surahNumber, a.ayahNumber)

/-- IndexedDB `store.put(ayah)` on the `ayahs` store: upsert by
composite key. -/
def putAyah (store : List Ayah) (ayah : Ayah) : List Ayah :=
  if store.any (fun x => decide (ayahKey x = ayahKey ayah)) then
    store.map (fun x => if ayahKey x = ayahKey ayah then ayah else x)
  else
    store ++ [ayah]

/-- `cacheAyahs(ayahs)`: one readwrite transaction putting every ayah. -/
def cacheAyahs (store : List Ayah) (ayahs : List Ayah) : List Ayah :=
  ayahs.foldl putAyah store

/-- `getCachedSurah(surahNumber)`: all ayahs of the surah (via the
`surah` index), then `.sort((a, b) => a.ayahNumber - b.ayahNumber)`. -/
def getCachedSurah (store : List Ayah) (surahNumber : Nat) : List Ayah :=
  List.insertionSort (fun a b => a.ayahNumber ≤ b.ayahNumber)
    (store.filter (fun a => decide (a.surahNumber = surahNumber)))

/-- `getAllCachedAyahs()`: every cached ayah sorted by
`globalAyahNumber`. -/
def getAllCachedAyahs (store : List Ayah) : List Ayah :=
  List.insertionSort (fun a b => a.globalAyahNumber ≤ b.globalAyahNumber) store

/-- `isSurahCached(surahNumber)`: `(await getCachedSurah(n)).length > 0`. -/
def isSurahCached (store : List Ayah) (surahNumber : Nat) : Bool :=
  decide ((getCachedSurah store surahNumber).length > 0)

def bookmarkKey (b : Bookmark) : Nat × Nat := (b.surahNumber, b.ayahNumber)

/-- IndexedDB `store.put` on the `bookmarks` store. -/
def putBookmark (store : List Bookmark) (b : Bookmark) : List Bookmark :=
  if store.any (fun x => decide (bookmarkKey x = bookmarkKey b)) then
    store.map (fun x => if bookmarkKey x = bookmarkKey b then b else x)
  else
    store ++ [b]

/-- `addBookmark(surahNumber, ayahNumber)`; `nowIso` stands for
`new Date().toISOString()`. -/
def addBookmark (store : List Bookmark) (surahNumber ayahNumber : Nat)
    (nowIso : String) : List Bookmark :=
  putBookmark store { surahNumber := surahNumber, ayahNumber := ayahNumber, timestamp := nowIso }

/-- `getBookmarks()`: all bookmarks sorted most-recent-first by
`new Date(b.timestamp).getTime()`; the `Date` parser is the
`dateMillis` parameter. -/
def getBookmarks (dateMillis : String → Int) (store : List Bookmark) : List Bookmark :=
  List.insertionSort
    (fun a b => dateMillis b.timestamp ≤ dateMillis a.timestamp) store

/-- `getProgress()`: the singleton row, or the structural default. -/
def getProgress (store : Option Progress) : Progress :=
  store.getD { perSurahProgress := [], overallCompletion := 0, lastRead := none }

/-- `updateProgress(progress)`: overwrite the singleton row. -/
def updateProgress (_store : Option Progress) (progress : Progress) : Option Progress :=
  some progress

/-- `updateLastRead(surahNumber, ayahNumber)`; `nowIso` stands for
`new Date().toISOString()`. -/
def updateLastRead (store : Option Progress) (surahNumber ayahNumber : Nat)
    (nowIso : String) : Option Progress :=
  updateProgress store
    { getProgress store with
      lastRead := some { surahNumber := surahNumber, ayahNumber := ayahNumber, timestamp := nowIso } }

/-! ### Settings -/

def defaultSettings : Settings :=
  { language := .en
    showTranslations := true
    fontSizePx := 24
    theme := .light
    preferredReciter := "ar.alafasy"
    playbackSpeed := 1
    extras := [] }

/-- `getSettings()`: the singleton row spread over the defaults (a fully
populated stored record overrides every default), or the defaults. -/
def getSettings (store : Option Settings) : Settings := store.getD defaultSettings

/-- Partial settings object (`Partial<Settings>`); `extras` lists the
`custom_*` keys present in the patch. -/
structure PartialSettings where
  language : Option SettingsLanguage := none
  showTranslations : Option Bool := none
  fontSizePx : Option Int := none
  theme : Option SettingsTheme := none
  preferredReciter : Option String := none
  playbackSpeed : Option ℚ := none
  extras : List (String × Json) := []

/-- JavaScript object spread on the extension-field maps: the keys of
`a` keep their position (value overridden by `b` when present), the keys
of `b` not in `a` are appended. -/
def spreadExtras (a b : List (String × Json)) : List (String × Json) :=
  a.map (fun kv =>
    match b.lookup kv.1 with
    | some v => (kv.1, v)
    | none => kv)
  ++ b.filter (fun kv => (a.lookup kv.1).isNone)

/-- `{ ...current, ...settings }` in `updateSettings`. -/
def mergeSettings (current : Settings) (p : PartialSettings) : Settings :=
  { language := p.language.getD current.language
    showTranslations := p.showTranslations.getD current.showTranslations
    fontSizePx := p.fontSizePx.getD current.fontSizePx
    theme := p.theme.getD current.theme
    preferredReciter := p.preferredReciter.getD current.preferredReciter
    playbackSpeed := p.playbackSpeed.getD current.playbackSpeed
    extras := spreadExtras current.extras p.extras }

/-- Model of `key.startsWith('custom_')`. -/
def startsWithCustom (s : String) : Bool := List.isPrefixOf "custom_".data s.data

/-- `validateSettings` (zod `SettingsSchema.parse`) on an in-memory
`Settings` value whose enum/boolean/string fields are well-typed by
construction: the numeric range checks plus the `custom_*` namespacing
refinement. Since `playbackSpeed.den > 0`, the condition
`den ≤ 2 * num ∧ num ≤ 2 * den` is exactly `0.5 ≤ playbackSpeed ≤ 2`. -/
def validSettingsB (s : Settings) : Bool :=
  decide (12 ≤ s.fontSizePx) && decide (s.fontSizePx ≤ 48)
  && decide ((s.playbackSpeed.den : Int) ≤ 2 * s.playbackSpeed.num)
  && decide (s.playbackSpeed.num ≤ 2 * (s.playbackSpeed.den : Int))
  && s.extras.all (fun kv => startsWithCustom kv.1)

/-- `updateSettings(settings)`: read, merge, validate, then save; an
invalid merged record is rejected with `E_INVALID_SETTINGS`
(`createError('E_INVALID_SETTINGS', 'Invalid settings data', e, true)`). -/
def updateSettings (store : Option Settings) (p : PartialSettings) :
    Except AppError (Option Settings) :=
  let current := getSettings store
  let updated := mergeSettings current p
  if validSettingsB updated then .ok (some updated)
  else .error (createError "E_INVALID_SETTINGS" "Invalid settings data" true)

/-! ### JSON (de)serialization for import/export -/

def bookmarkToJson (b : Bookmark) : Json :=
  Json.obj
    [("surahNumber", Json.num (b.surahNumber : ℚ)),
     ("ayahNumber", Json.num (b.ayahNumber : ℚ)),
     ("timestamp", Json.str b.timestamp)]

/-- `exportBookmarks()`: `JSON.stringify({ bookmarks })` of
`getBookmarks()`. -/
def exportBookmarks (dateMillis : String → Int) (store : List Bookmark) : Json :=
  Json.obj [("bookmarks", Json.arr ((getBookmarks dateMillis store).map bookmarkToJson))]

/-- Zod `BookmarkSchema.parse` on one JSON value: an object with an
integer `surahNumber` in 1..114, a positive integer `ayahNumber` and a
`timestamp` string accepted by zod's `.datetime()` check (the
`isDatetime` parameter); unknown keys are stripped. -/
def bookmarkFromJson (isDatetime : String → Bool) (j : Json) : Option Bookmark :=
  match j with
  | Json.obj fields =>
    match fields.lookup "surahNumber", fields.lookup "ayahNumber",
        fields.lookup "timestamp" with
    | some (Json.num s), some (Json.num a), some (Json.str t) =>
      if s.den = 1 ∧ 1 ≤ s.num ∧ s.num ≤ 114 ∧ a.den = 1 ∧ 1 ≤ a.num ∧ isDatetime t then
        some { surahNumber := s.num.toNat, ayahNumber := a.num.toNat, timestamp := t }
      else none
    | _, _, _ => none
  | _ => none

/-- Zod `BookmarksArraySchema.parse`: `{ bookmarks: Bookmark[] }`. -/
def bookmarksFromJson (isDatetime : String → Bool) (j : Json) : Option (List Bookmark) :=
  match j with
  | Json.obj fields =>
    match fields.lookup "bookmarks" with
    | some (Json.arr elems) => elems.mapM (bookmarkFromJson isDatetime)
    | _ => none
  | _ => none

/-- `importBookmarks(jsonData)`: parse + validate (any throw is wrapped
as `E_INVALID_IMPORT`, not recoverable), then in one readwrite
transaction clear the store and `add` every validated bookmark.  `add`
(unlike `put`) raises on a duplicate key, aborting the transaction —
clear included — and rejecting with `E_IMPORT_FAILED`; that rejected
promise is returned from inside the `try`, not awaited there, so it is
not re-wrapped. `jsonData = none` models input text rejected by
`JSON.parse`. -/
def importBookmarks (isDatetime : String → Bool) (jsonData : Option Json)
    (_store : List Bookmark) : Except AppError (List Bookmark) :=
  match jsonData.bind (bookmarksFromJson isDatetime) with
  | none => .error (createError "E_INVALID_IMPORT" "Invalid bookmark data format" false)
  | some validated =>
    if (validated.map bookmarkKey).Nodup then .ok validated
    else .error (createError "E_IMPORT_FAILED" "Failed to import bookmarks" true)

def knownSettingsKeys : List String :=
  ["language", "showTranslations", "fontSizePx", "theme", "preferredReciter", "playbackSpeed"]

def parseLanguageField : Option Json → Option SettingsLanguage
  | none => some .en
  | some (Json.str "ar") => some .ar
  | some (Json.str "en") => some .en
  | some (Json.str "ur") => some .ur
  | some _ => none

def parseThemeField : Option Json → Option SettingsTheme
  | none => some .light
  | some (Json.str "light") => some .light
  | some (Json.str "dark") => some .dark
  | some _ => none

def parseBoolField (dflt : Bool) : Option Json → Option Bool
  | none => some dflt
  | some (Json.bool b) => some b
  | some _ => none

def parseStrField (dflt : String) : Option Json → Option String
  | none => some dflt
  | some (Json.str s) => some s
  | some _ => none

/-- Zod `z.number().int().min(lo).max(hi).default(dflt)`. -/
def parseIntRangeField (dflt lo hi : Int) : Option Json → Option Int
  | none => some dflt
  | some (Json.num q) =>
    if q.den = 1 ∧ lo ≤ q.num ∧ q.num ≤ hi then some q.num else none
  | some _ => none

/-- Zod `z.number().min(0.5).max(2).default(1)` (`playbackSpeed`). -/
def parseSpeedField : Option Json → Option ℚ
  | none => some 1
  | some (Json.num q) =>
    if (q.den : Int) ≤ 2 * q.num ∧ q.num ≤ 2 * (q.den : Int) then some q else none
  | some _ => none

/-- Zod `SettingsSchema.parse` on a JSON value: per-field defaults and
checks, passthrough of unknown keys, then the `custom_*` namespacing
refinement. -/
def settingsFromJson (j : Json) : Option Settings :=
  match j with
  | Json.obj fields => do
    let language ← parseLanguageField (fields.lookup "language")
    let showTranslations ← parseBoolField true (fields.lookup "showTranslations")
    let fontSizePx ← parseIntRangeField 24 12 48 (fields.lookup "fontSizePx")
    let theme ← parseThemeField (fields.lookup "theme")
    let preferredReciter ← parseStrField "ar.alafasy" (fields.lookup "preferredReciter")
    let playbackSpeed ← parseSpeedField (fields.lookup "playbackSpeed")
    let extras := fields.filter (fun kv => !(knownSettingsKeys.contains kv.1))
    if extras.all (fun kv => startsWithCustom kv.1) then
      pure { language := language, showTranslations := showTranslations,
             fontSizePx := fontSizePx, theme := theme,
             preferredReciter := preferredReciter, playbackSpeed := playbackSpeed,
             extras := extras }
    else none
  | _ => none

/-- A full validated `Settings` value passed to `updateSettings` as the
partial object (every field present). -/
def settingsToPartial (s : Settings) : PartialSettings :=
  { language := some s.language
    showTranslations := some s.showTranslations
    fontSizePx := some s.fontSizePx
    theme := some s.theme
    preferredReciter := some s.preferredReciter
    playbackSpeed := some s.playbackSpeed
    extras := s.extras }

/-- `importSettings(jsonData)`: parse, validate, `updateSettings`; any
throw inside the `try` — including an `AppError` thrown by
`updateSettings` — is replaced by `E_INVALID_IMPORT`, not recoverable. -/
def importSettings (store : Option Settings) (jsonData : Option Json) :
    Except AppError (Option Settings) :=
  match jsonData.bind settingsFromJson with
  | none => .error (createError "E_INVALID_IMPORT" "Invalid settings data format" false)
  | some validated =>
    match updateSettings store (settingsToPartial validated) with
    | .ok st => .ok st
    | .error _ => .error (createError "E_INVALID_IMPORT" "Invalid settings data format" false)

/-! ## api.ts — remote fetcher and search -/

/-- One ayah of an upstream edition response
(`ApiAyahResponseSchema`'s shape). -/
structure ApiAyah where
  number : Nat
  numberInSurah : Nat
  text : String
  audio : Option String
  juz : Nat
  page : Nat
deriving DecidableEq

/-- Zod `ApiAyahResponseSchema` value checks; `isUrl` is zod's
`.url()` string check. -/
def apiAyahOkB (isUrl : String → Bool) (a : ApiAyah) : Bool :=
  decide (1 ≤ a.number) && decide (1 ≤ a.numberInSurah) && (a.text != "")
  && (match a.audio with | some u => isUrl u | none => true)
  && decide (1 ≤ a.juz) && decide (a.juz ≤ 30) && decide (1 ≤ a.page)

/-- Zod `ApiSurahResponseSchema` value checks on the ayah array. -/
def zodSurahOk (isUrl : String → Bool) (l : List ApiAyah) : Bool :=
  l.all (apiAyahOkB isUrl)

/-- One edition HTTP response.
`ok` is `res.ok`; `body = none` models a body `res.json()` rejects,
`body = some none` a JSON body not of the `{ data: { ayahs: [...] } }`
shape, and `body = some (some l)` a body of that shape carrying the
ayah field values `l` (still subject to the zod value checks). -/
structure EditionResp where
  ok : Bool
  body : Option (Option (List ApiAyah))
deriving DecidableEq

/-- The `res.ok ? res.json() : null` step inside the second
`Promise.all`: a rejected `json()` rejects the whole `Promise.all`. -/
def readJson (e : EditionResp) : Except Unit (Option (Option (List ApiAyah))) :=
  if e.ok then
    match e.body with
    | none => .error ()
    | some v => .ok (some v)
  else .ok none

/-- `ApiSurahResponseSchema.safeParse` on a raw optional-edition body:
`success` yields the ayah list, anything else `none`. -/
def safeParseSurah (isUrl : String → Bool) (raw : Option (List ApiAyah)) :
    Option (List ApiAyah) :=
  match raw with
  | some l => if zodSurahOk isUrl l then some l else none
  | none => none

/-- `sanitizeText` from api.ts: the falsy guard `if (!text) return ''`
is modelled exactly; the three regex `.replace` passes (script tags,
event-handler attributes, all remaining tags) followed by `.trim()` are
the `strip` parameter, on whose behaviour no claim depends. -/
def sanitizeText (strip : String → String) (text : String) : String :=
  if text = "" then "" else strip text

/-- Zod `AyahSchema.parse` value checks on a normalized ayah. -/
def ayahSchemaOkB (isUrl : String → Bool) (a : Ayah) : Bool :=
  decide (1 ≤ a.surahNumber) && decide (a.surahNumber ≤ 114)
  && decide (1 ≤ a.ayahNumber)
  && decide (1 ≤ a.globalAyahNumber) && decide (a.globalAyahNumber ≤ 6236)
  && (a.arabicText != "")
  && (match a.audioUrl with | some u => isUrl u | none => true)
  && decide (1 ≤ a.juzNumber) && decide (a.juzNumber ≤ 30)

/-- `normalizeAyah` from api.ts: build the canonical record, then
`AyahSchema.parse` it (`none` models the thrown `ZodError`). -/
def normalizeAyah (strip : String → String) (isUrl : String → Bool)
    (apiAyah : ApiAyah) (surahNumber : Nat)
    (englishText urduText audioUrl : Option String) : Option Ayah :=
  let normalized : Ayah :=
    { surahNumber := surahNumber
      ayahNumber := apiAyah.numberInSurah
      globalAyahNumber := apiAyah.number
      arabicText := sanitizeText strip apiAyah.text
      englishText := some (sanitizeText strip (englishText.getD ""))
      urduText := some (sanitizeText strip (urduText.getD ""))
      audioUrl := jsOrOptStr audioUrl apiAyah.audio
      juzNumber := apiAyah.juz
      pageNumber := some apiAyah.page }
  if ayahSchemaOkB isUrl normalized then some normalized else none

/-- Failure inside `fetchSurah`'s `try` block: either an `AppError`
created there (re-thrown as is by the `catch`) or a plain JavaScript
throw — a rejected `json()` or a `ZodError` — which the `catch` wraps
as `E_NETWORK`. -/
inductive FetchFail
  | appErr (e : AppError)
  | jsThrow
deriving DecidableEq

/-- Body of `fetchSurah`'s `try` block.  The four `fetch` responses for
the `ar.alafasy`, `en.sahih`, `ur.ahmedali` and reciter editions are the
four `EditionResp` inputs. -/
def fetchSurahAux (strip : String → String) (isUrl : String → Bool)
    (surahNumber : Nat) (arabic english urdu audio : EditionResp) :
    Except FetchFail (List Ayah) :=
  if arabic.ok = false then
    .error (.appErr (createError "E_API_FETCH"
      ("Failed to fetch Surah " ++ toString surahNumber) true))
  else
    match readJson arabic, readJson english, readJson urdu, readJson audio with
    | .ok rawArabicData, .ok rawEnglishData, .ok rawUrduData, .ok rawAudioData =>
      match rawArabicData with
      | some (some l) =>
        if zodSurahOk isUrl l then
          let englishData := rawEnglishData.bind (safeParseSurah isUrl)
          let urduData := rawUrduData.bind (safeParseSurah isUrl)
          let audioData := rawAudioData.bind (safeParseSurah isUrl)
          match l.enum.mapM (fun p =>
              normalizeAyah strip isUrl p.2 surahNumber
                ((englishData.bind (fun es => es.get? p.1)).map ApiAyah.text)
                ((urduData.bind (fun us => us.get? p.1)).map ApiAyah.text)
                ((audioData.bind (fun aus => aus.get? p.1)).bind ApiAyah.audio)) with
          | some ayahs =>
            .ok (List.insertionSort (fun a b => a.ayahNumber ≤ b.ayahNumber) ayahs)
          | none => .error .jsThrow
        else .error .jsThrow
      | _ => .error .jsThrow
    | _, _, _, _ => .error .jsThrow

/-- `fetchSurah(surahNumber, reciter)`: the `catch` re-throws an
`AppError` (`error.errorCode` truthy) unchanged and wraps anything else
as `E_NETWORK`, recoverable. -/
def fetchSurah (strip : String → String) (isUrl : String → Bool)
    (surahNumber : Nat) (arabic english urdu audio : EditionResp) :
    Except AppError (List Ayah) :=
  match fetchSurahAux strip isUrl surahNumber arabic english urdu audio with
  | .ok v => .ok v
  | .error (.appErr e) => .error e
  | .error .jsThrow =>
    .error (createError "E_NETWORK" "Network error while fetching Quran data" true)

/-- The cases in which an optional edition contributes no data while
the overall fetch can still succeed: its HTTP response was not `ok`, or
its JSON body failed the `safeParse` (wrong shape or failed value
checks).  (An `ok` response whose body is not JSON at all instead
rejects the whole `Promise.all`.) -/
def editionDroppedB (isUrl : String → Bool) (e : EditionResp) : Bool :=
  !e.ok ||
    (match e.body with
     | some (some r) => !(zodSurahOk isUrl r)
     | some none => true
     | none => false)

/-- The data an optional edition contributes inside `fetchSurah`
(`rawData.bind safeParse` after the `readJson` step), provided the
overall fetch does not abort. -/
def optionalEditionData (isUrl : String → Bool) (e : EditionResp) :
    Option (List ApiAyah) :=
  match readJson e with
  | .ok raw => raw.bind (safeParseSurah isUrl)
  | .error _ => none

inductive SearchLang | en | ur
deriving DecidableEq

/-- The filter predicate of `searchAyahs`:
`text?.toLowerCase().includes(normalizedQuery)` on the selected
language's text field (an `undefined` field is falsy, hence no match). -/
def ayahMatches (normalizedQuery : String) (language : SearchLang) (ayah : Ayah) : Bool :=
  let text := match language with
    | .en => ayah.englishText
    | .ur => ayah.urduText
  (text.map (fun t => jsStrIncludes (jsToLower t) normalizedQuery)).getD false

/-- `searchAyahs(ayahs, query, language)` from api.ts. -/
def searchAyahs (ayahs : List Ayah) (query : String) (language : SearchLang) : List Ayah :=
  let normalizedQuery := jsTrim (jsToLower query)
  if normalizedQuery = "" then []
  else
    List.insertionSort (fun a b => a.globalAyahNumber ≤ b.globalAyahNumber)
      (ayahs.filter (ayahMatches normalizedQuery language))

/-! ## useQuran.ts — the `useSurah` read-through query function -/

/-- Outcome of one run of the `useSurah` `queryFn`: the value returned
or the value thrown, the ayah store afterwards, and whether any network
fetch was started. -/
structure QueryOutcome where
  result : Except JsError (List Ayah)
  store : List Ayah
  fetchAttempted : Bool

/-- The `queryFn` of `useSurah(surahNumber)`.  `net` is the outcome
`fetchSurah(surahNumber)` would have (its success value or the
`AppError` it rejects with).  On a cache hit while online the refresh
is fire-and-forget: its success re-caches, its failure is
`.catch(console.error)`-swallowed, and either way the caller gets the
cached verses. On a cache miss offline it throws the plain
`new Error('No cached data available offline')` without fetching. -/
def useSurahQueryFn (store : List Ayah) (isOffline : Bool)
    (net : Except AppError (List Ayah)) (surahNumber : Nat) : QueryOutcome :=
  let cached := getCachedSurah store surahNumber
  if cached.length > 0 then
    { result := .ok cached
      store :=
        if isOffline then store
        else
          match net with
          | .ok ayahs => cacheAyahs store ayahs
          | .error _ => store
      fetchAttempted := !isOffline }
  else if isOffline then
    { result := .error (.plainError "No cached data available offline")
      store := store
      fetchAttempted := false }
  else
    match net with
    | .ok ayahs =>
      { result := .ok ayahs, store := cacheAyahs store ayahs, fetchAttempted := true }
    | .error e =>
      { result := .error (.appError e), store := store, fetchAttempted := true }

/-- Discriminator: is the thrown value a structured `AppError` (carrying
an error code and a recoverable flag)? -/
def resultIsTypedAppError (o : QueryOutcome) : Bool :=
  match o.result with
  | .error (.appError _) => true
  | _ => false

/-! ## BookmarksPage.tsx — CSV bookmark import -/

def MAX_BOOKMARK_ROWS : Nat := 10000

/-- A bookmark parsed from a CSV row (with its optional `notes`). -/
structure CsvBookmark where
  surahNumber : Nat
  ayahNumber : Nat
  timestamp : String
  notes : Option String
deriving DecidableEq

/-- `validateCSVHeader(header)`. -/
def validateCSVHeader (header : String) : Bool :=
  let columns := (jsSplitOn ',' (jsToLower header)).map jsTrim
  ["surah", "verse", "timestamp"].all (fun col => columns.contains col)

/-- Step function of the global regex match
`line.match(/(".*?"|[^,]+)/g)`: at each position the lazy quoted
alternative is tried first (a `"` with a later closing `"`), otherwise a
maximal run of non-comma characters, otherwise (on a comma) the scanner
advances.  Structural recursion on a fuel bound (each step consumes at
least one character, so `fuel = length` suffices). -/
def jsMatchFieldsGo : Nat → List Char → List (List Char)
  | 0, _ => []
  | _, [] => []
  | fuel + 1, c :: rest =>
    if c = '"' ∧ rest.contains '"' then
      ('"' :: rest.takeWhile (fun x => x != '"') ++ ['"'])
        :: jsMatchFieldsGo fuel ((rest.dropWhile (fun x => x != '"')).drop 1)
    else if c = ',' then jsMatchFieldsGo fuel rest
    else (c :: rest.takeWhile (fun x => x != ','))
        :: jsMatchFieldsGo fuel (rest.dropWhile (fun x => x != ','))

/-- `line.match(/(".*?"|[^,]+)/g) || []`. -/
def jsMatchFields (line : String) : List String :=
  (jsMatchFieldsGo line.data.length line.data).map List.asString

/-- `.replace(/^"|"$/g, '')`: one leading and one trailing quote
removed. -/
def stripEdgeQuotes (s : List Char) : List Char :=
  let s1 := match s with
    | '"' :: r => r
    | _ => s
  match s1.getLast? with
  | some '"' => s1.dropLast
  | _ => s1

/-- `.replace(/""/g, '"')`. -/
def unescapeQuotes : List Char → List Char
  | [] => []
  | '"' :: '"' :: rest => '"' :: unescapeQuotes rest
  | c :: rest => c :: unescapeQuotes rest

/-- What one iteration of the row loop of `csvToBookmarks` does with
its line: skip it (blank), push an error, or push a bookmark. -/
inductive RowOutcome where
  | blank
  | rowError (msg : String)
  | bookmark (b : CsvBookmark)
deriving DecidableEq

/-- One iteration of the row loop of `csvToBookmarks`, for the line at
index `i` of the `lines` array (the loop runs `i = 1, 2, ...`; error
messages cite `Row ${i + 1}`); `nowIso` stands for
`new Date().toISOString()`. -/
def parseCsvRow (nowIso : String) (i : Nat) (rawLine : String) : RowOutcome :=
  let line := jsTrim rawLine
  if line = "" then .blank
  else
    let parts := jsMatchFields line
    let surahNumber := jsParseIntOr0 (parts.getD 0 "")
    let ayahNumber := jsParseIntOr0 (parts.getD 1 "")
    let timestamp := match parts.get? 2 with
      | some t => if t = "" then nowIso else t
      | none => nowIso
    let notes := match parts.get? 3 with
      | some raw =>
        let cleaned := (unescapeQuotes (stripEdgeQuotes raw.data)).asString
        if cleaned = "" then none else some cleaned
      | none => none
    if surahNumber < 1 ∨ 114 < surahNumber then
      .rowError ("Row " ++ toString (i + 1) ++ ": Invalid surah number ("
        ++ toString surahNumber ++ "). Must be 1-114.")
    else if ayahNumber < 1 ∨ 286 < ayahNumber then
      .rowError ("Row " ++ toString (i + 1) ++ ": Invalid ayah number ("
        ++ toString ayahNumber ++ ").")
    else
      .bookmark { surahNumber := surahNumber.toNat, ayahNumber := ayahNumber.toNat,
                  timestamp := timestamp, notes := notes }

/-- The row loop of `csvToBookmarks` over the data lines: the
accumulated `(bookmarks, errors)`, both in row order. -/
def csvRows (nowIso : String) : Nat → List String → List CsvBookmark × List String
  | _, [] => ([], [])
  | i, rawLine :: rest =>
    let next := csvRows nowIso (i + 1) rest
    match parseCsvRow nowIso i rawLine with
    | .blank => next
    | .rowError msg => (next.1, msg :: next.2)
    | .bookmark b => (b :: next.1, next.2)

structure CsvParseResult where
  bookmarks : List CsvBookmark
  errors : List String
deriving DecidableEq

/-- `csvToBookmarks(csv)` from BookmarksPage.tsx. -/
def csvToBookmarks (nowIso csv : String) : CsvParseResult :=
  let lines := jsSplitOn '\n' (jsTrim csv)
  if lines.length < 2 then
    { bookmarks := [], errors := ["CSV file is empty or has no data rows"] }
  else if !(validateCSVHeader (lines.getD 0 "")) then
    { bookmarks := [],
      errors := ["Invalid CSV header. Expected columns: surah, verse, timestamp, notes"] }
  else if MAX_BOOKMARK_ROWS < lines.length - 1 then
    { bookmarks := [], errors := ["Too many rows. Maximum allowed: 10000"] }
  else
    let r := csvRows nowIso 1 (lines.drop 1)
    { bookmarks := r.1, errors := r.2 }

/-- `JSON.stringify` of one parsed CSV bookmark (`undefined` notes are
omitted). -/
def csvBookmarkToJson (b : CsvBookmark) : Json :=
  Json.obj
    ([("surahNumber", Json.num (b.surahNumber : ℚ)),
      ("ayahNumber", Json.num (b.ayahNumber : ℚ)),
      ("timestamp", Json.str b.timestamp)]
    ++ match b.notes with
       | some n => [("notes", Json.str n)]
       | none => [])

/-- `JSON.stringify({ bookmarks: parsedBookmarks })` in
`handleImportCSV`. -/
def csvBookmarksToJson (bs : List CsvBookmark) : Json :=
  Json.obj [("bookmarks", Json.arr (bs.map csvBookmarkToJson))]

/-- `handleImportCSV` from the file's text onward (file-size gating and
UI toasts aside): parse the CSV, fail on zero valid rows (with the first
error, or the no-valid-bookmarks message), otherwise feed the parsed
rows through `importBookmarks`; a returned error means the store was
left untouched. -/
def handleImportCSV (isDatetime : String → Bool) (nowIso text : String)
    (store : List Bookmark) : Except JsError (List Bookmark) :=
  let parsed := csvToBookmarks nowIso text
  if parsed.errors.length > 0 ∧ parsed.bookmarks.length = 0 then
    .error (.plainError (parsed.errors.getD 0 ""))
  else if parsed.bookmarks.length = 0 then
    .error (.plainError "No valid bookmarks found in the file")
  else
    match importBookmarks isDatetime (some (csvBookmarksToJson parsed.bookmarks)) store with
    | .ok newStore => .ok newStore
    | .error e => .error (.appError e)

/-! ## Concrete example data used in closed statements -/

/-- Concrete instantiation of zod's `z.string().datetime()` check used
in concrete runs: the fixed `YYYY-MM-DDTHH:MM:SSZ` shape. -/
def isoDatetimeExample (s : String) : Bool :=
  match s.data with
  | [y1, y2, y3, y4, '-', mo1, mo2, '-', d1, d2, 'T',
     h1, h2, ':', mi1, mi2, ':', s1, s2, 'Z'] =>
    [y1, y2, y3, y4, mo1, mo2, d1, d2, h1, h2, mi1, mi2, s1, s2].all Char.isDigit
  | _ => false

def sampleAyah : Ayah :=
  { surahNumber := 1, ayahNumber := 1, globalAyahNumber := 1, arabicText := "X",
    englishText := some "In the name of Allah", urduText := some "", audioUrl := none,
    juzNumber := 1, pageNumber := some 1 }

def sampleAyah2 : Ayah :=
  { surahNumber := 1, ayahNumber := 2, globalAyahNumber := 2, arabicText := "Y",
    englishText := some "Praise be", urduText := none, audioUrl := none,
    juzNumber := 1, pageNumber := some 1 }

/-- A cached ayah with `ayahNumber = 5` and no other ayah of its surah:
exactly what `cacheAyahs` stores when the upstream response for a surah
contains a single verse whose `numberInSurah` is `5` (every zod check
passes on it). -/
def gapAyah : Ayah :=
  { surahNumber := 1, ayahNumber := 5, globalAyahNumber := 5, arabicText := "Z",
    englishText := some "", urduText := some "", audioUrl := none,
    juzNumber := 1, pageNumber := some 1 }

def bkSample : Bookmark :=
  { surahNumber := 2, ayahNumber := 255, timestamp := "2024-01-01T00:00:00Z" }

/-- A partial settings object whose merge fails validation
(`fontSizePx` above 48). -/
def pBadFontSize : PartialSettings := { fontSizePx := some 100 }

/-- The partial settings object of the spec's merge example. -/
def p30 : PartialSettings := { fontSizePx := some 30 }

/-- Spec-side predicate (from the claim's words): the ayah numbers are
contiguous starting at 1. -/
def contiguousFromOne (l : List Nat) : Prop := l = List.range' 1 l.length

def arabicAudioAyah : ApiAyah :=
  { number := 1, numberInSurah := 1, text := "bismillah",
    audio := some "https://cdn.example/1.mp3", juz := 1, page := 1 }

def arabicNoAudioAyah : ApiAyah :=
  { number := 1, numberInSurah := 1, text := "bismillah",
    audio := none, juz := 1, page := 1 }

/-- An OK Arabic (`ar.alafasy`) response whose single ayah carries an
audio URL — which it does in practice, since the Arabic text edition the
code fetches is itself an audio edition. -/
def arabicWithAudio : EditionResp := { ok := true, body := some (some [arabicAudioAyah]) }

def arabicNoAudio : EditionResp := { ok := true, body := some (some [arabicNoAudioAyah]) }

/-- A failed (non-OK) edition response. -/
def editionDown : EditionResp := { ok := false, body := none }

/-- The ayah `fetchSurah` produces from `arabicNoAudio` when all three
optional editions fail. -/
def fallbackFreeAyah : Ayah :=
  { surahNumber := 1, ayahNumber := 1, globalAyahNumber := 1, arabicText := "bismillah",
    englishText := some "", urduText := some "", audioUrl := none,
    juzNumber := 1, pageNumber := some 1 }

def csvMixedTimestamps : String :=
  "surah,verse,timestamp\n115,1,2024-01-01T00:00:00Z\n2,255,later"

def csvSampleGood : String :=
  "surah,verse,timestamp\n115,1,2024-01-01T00:00:00Z\n2,255,2024-01-01T00:00:00Z"

def csvSampleZeroValid : String := "surah,verse,timestamp\n115,1,x"

/-- A CSV whose two surviving rows carry the same `(surah, ayah)` key. -/
def csvDupRows : String :=
  "surah,verse,timestamp\n2,255,2024-01-01T00:00:00Z\n2,255,2024-01-01T00:00:00Z"

/-- A CSV whose single surviving row carries a timestamp the JSON
bookmark schema's datetime check rejects. -/
def csvBadTimestamp : String := "surah,verse,timestamp\n2,255,nope"

instance : IsTotal Ayah (fun a b => a.ayahNumber ≤ b.ayahNumber) :=
  ⟨fun a b => Nat.le_total a.ayahNumber b.ayahNumber⟩

instance : IsTrans Ayah (fun a b => a.ayahNumber ≤ b.ayahNumber) :=
  ⟨fun _ _ _ h h2 => Nat.le_trans h h2⟩

instance : IsTotal Ayah (fun a b => a.globalAyahNumber ≤ b.globalAyahNumber) :=
  ⟨fun a b => Nat.le_total a.globalAyahNumber b.globalAyahNumber⟩

instance : IsTrans Ayah (fun a b => a.globalAyahNumber ≤ b.globalAyahNumber) :=
  ⟨fun _ _ _ h h2 => Nat.le_trans h h2⟩

/-! ## Store invariants

The composite-key uniqueness assumed by the claims below is the
invariant the keyed stores maintain: IndexedDB `put` replaces the
record with an equal key, so it never introduces a duplicate. -/

theorem putAyah_keyNodup (store : List Ayah) (x : Ayah)
    (h : (store.map ayahKey).Nodup) : ((putAyah store x).map ayahKey).Nodup := by
  unfold putAyah
  split
  · rw [List.map_map]
    have heq : store.map (ayahKey ∘ fun y => if ayahKey y = ayahKey x then x else y)
        = store.map ayahKey := by
      apply List.map_congr_left
      intro a _
      by_cases hk : ayahKey a = ayahKey x
      · simp [Function.comp, hk]
      · simp [Function.comp, hk]
    rw [heq]
    exact h
  · rename_i hany
    rw [List.map_append]
    rw [List.nodup_append]
    refine ⟨h, List.nodup_singleton _, ?_⟩
    intro k hk hk1
    simp at hk1
    obtain ⟨a, ha, hka⟩ := List.mem_map.mp hk
    exact hany (List.any_eq_true.mpr ⟨a, ha, decide_eq_true (by rw [hka, hk1])⟩)

theorem cacheAyahs_keyNodup (ayahs : List Ayah) :
    ∀ (store : List Ayah), (store.map ayahKey).Nodup →
      ((cacheAyahs store ayahs).map ayahKey).Nodup := by
  induction ayahs with
  | nil => intro store h; exact h
  | cons a t ih =>
    intro store h
    exact ih (putAyah store a) (putAyah_keyNodup store a h)

theorem putBookmark_keyNodup (store : List Bookmark) (x : Bookmark)
    (h : (store.map bookmarkKey).Nodup) :
    ((putBookmark store x).map bookmarkKey).Nodup := by
  unfold putBookmark
  split
  · rw [List.map_map]
    have heq : store.map (bookmarkKey ∘ fun y => if bookmarkKey y = bookmarkKey x then x else y)
        = store.map bookmarkKey := by
      apply List.map_congr_left
      intro a _
      by_cases hk : bookmarkKey a = bookmarkKey x
      · simp [Function.comp, hk]
      · simp [Function.comp, hk]
    rw [heq]
    exact h
  · rename_i hany
    rw [List.map_append]
    rw [List.nodup_append]
    refine ⟨h, List.nodup_singleton _, ?_⟩
    intro k hk hk1
    simp at hk1
    obtain ⟨a, ha, hka⟩ := List.mem_map.mp hk
    exact hany (List.any_eq_true.mpr ⟨a, ha, decide_eq_true (by rw [hka, hk1])⟩)

/-! ## Claim theorems -/

/-- C1: whenever `isSurahCached(N)` holds, the `useSurah` query function
returns the cached verses — for every offline flag and every outcome of
the background `fetchSurah` (in particular a failing one, which is
swallowed) — so it never throws at all, a fortiori never an error with
code `E_NETWORK`. -/
theorem useSurah_cache_hit_returns_cached (store : List Ayah) (isOffline : Bool)
    (net : Except AppError (List Ayah)) (surahNumber : Nat)
    (h : isSurahCached store surahNumber = true) :
    (useSurahQueryFn store isOffline net surahNumber).result
      = .ok (getCachedSurah store surahNumber) := by
  have hl : (getCachedSurah store surahNumber).length > 0 := of_decide_eq_true h
  unfold useSurahQueryFn
  simp only [if_pos hl]

/-- Witness for C1: surah 1 is cached, the device is online and the
background refresh fails with `E_NETWORK`; the caller still gets the
cached verses. -/
theorem useSurah_cache_hit_returns_cached_witness :
    (useSurahQueryFn [sampleAyah] false
        (.error (createError "E_NETWORK" "Network error while fetching Quran data" true))
        1).result
      = .ok [sampleAyah] :=
  useSurah_cache_hit_returns_cached [sampleAyah] false
    (.error (createError "E_NETWORK" "Network error while fetching Quran data" true)) 1 rfl

/-- C5 (counterexample): with no cached data and the device offline, the
`useSurah` query function does fail immediately, but it throws the plain
`new Error('No cached data available offline')` — not a structured
`AppError` carrying a stable code and a `recoverable` flag, as the claim
states. -/
theorem useSurah_offline_error_is_untyped :
    (useSurahQueryFn [] true (.ok []) 1).result
        = .error (.plainError "No cached data available offline")
    ∧ resultIsTypedAppError (useSurahQueryFn [] true (.ok []) 1) = false :=
  ⟨rfl, rfl⟩

/-- C5 (amended): when surah `N` is absent from the store and the device
is offline, the query function fails immediately — no network fetch is
started — with a plain untyped `Error` whose message is
`'No cached data available offline'` (not with a typed `AppError`). -/
theorem useSurah_offline_no_cache_plain_error (store : List Ayah)
    (net : Except AppError (List Ayah)) (surahNumber : Nat)
    (h : getCachedSurah store surahNumber = []) :
    (useSurahQueryFn store true net surahNumber).result
        = .error (.plainError "No cached data available offline")
    ∧ (useSurahQueryFn store true net surahNumber).fetchAttempted = false := by
  unfold useSurahQueryFn
  simp [h]

/-- Witness for the amended C5 at an empty store. -/
theorem useSurah_offline_no_cache_plain_error_witness :
    (useSurahQueryFn [] true (.ok [sampleAyah]) 5).fetchAttempted = false :=
  (useSurah_offline_no_cache_plain_error [] (.ok [sampleAyah]) 5 rfl).2

/-- C2 (counterexample): the `E_INVALID_SETTINGS` error thrown by
`updateSettings` is constructed with `recoverable = true`
(`createError('E_INVALID_SETTINGS', 'Invalid settings data', e, true)`),
not `recoverable = false` as the claim states. -/
theorem updateSettings_error_is_recoverable :
    updateSettings none pBadFontSize
      = .error
          { errorCode := "E_INVALID_SETTINGS", message := "Invalid settings data",
            recoverable := true } := rfl

/-- C2 (amended): every `E_INVALID_IMPORT` error thrown by
`importBookmarks` or `importSettings` carries `recoverable = false`,
but the `E_INVALID_SETTINGS` error thrown by `updateSettings` carries
`recoverable = true` (and `E_VALIDATION` is never constructed by the
code at all — zod throws its own `ZodError`). -/
theorem invalid_data_error_flags (isDatetime : String → Bool) (jb : Option Json)
    (bstore : List Bookmark) (sstore : Option Settings) (sj : Option Json)
    (p : PartialSettings) :
    (∀ e, importBookmarks isDatetime jb bstore = .error e →
        e.errorCode = "E_INVALID_IMPORT" → e.recoverable = false)
    ∧ (∀ e, importSettings sstore sj = .error e → e.recoverable = false)
    ∧ (∀ e, updateSettings sstore p = .error e →
        e.errorCode = "E_INVALID_SETTINGS" ∧ e.recoverable = true) := by
  refine ⟨?_, ?_, ?_⟩
  · intro e he hcode
    unfold importBookmarks at he
    split at he
    · cases he
      rfl
    · split at he
      · simp at he
      · cases he
        exact absurd hcode (by decide)
  · intro e he
    unfold importSettings at he
    split at he
    · cases he
      rfl
    · split at he
      · simp at he
      · cases he
        rfl
  · intro e he
    unfold updateSettings at he
    by_cases hv : validSettingsB (mergeSettings (getSettings sstore) p) = true
    · simp [hv] at he
    · simp [hv] at he
      cases he
      exact ⟨rfl, rfl⟩

/-- Witness for the amended C2: a failing `importBookmarks` run yields a
non-recoverable `E_INVALID_IMPORT` error, and a failing
`updateSettings` run yields a recoverable `E_INVALID_SETTINGS` error. -/
theorem invalid_data_error_flags_witness :
    (createError "E_INVALID_IMPORT" "Invalid bookmark data format" false).recoverable = false
    ∧ (createError "E_INVALID_SETTINGS" "Invalid settings data" true).recoverable = true :=
  ⟨(invalid_data_error_flags (fun _ => true) none [] none none pBadFontSize).1
      (createError "E_INVALID_IMPORT" "Invalid bookmark data format" false) rfl rfl,
   ((invalid_data_error_flags (fun _ => true) none [] none none pBadFontSize).2.2
      (createError "E_INVALID_SETTINGS" "Invalid settings data" true) rfl).2⟩

/-- C10: `updateLastRead(s, a)` replaces only the `lastRead` field —
with the given verse identity and the fresh timestamp — and leaves
`perSurahProgress` and `overallCompletion` exactly as they were. -/
theorem updateLastRead_frame (store : Option Progress) (surahNumber ayahNumber : Nat)
    (nowIso : String) :
    (getProgress (updateLastRead store surahNumber ayahNumber nowIso)).perSurahProgress
        = (getProgress store).perSurahProgress
    ∧ (getProgress (updateLastRead store surahNumber ayahNumber nowIso)).overallCompletion
        = (getProgress store).overallCompletion
    ∧ (getProgress (updateLastRead store surahNumber ayahNumber nowIso)).lastRead
        = some { surahNumber := surahNumber, ayahNumber := ayahNumber, timestamp := nowIso } :=
  ⟨rfl, rfl, rfl⟩

/-! ## Helper lemmas -/

theorem lookup_append {α β : Type} [BEq α] (k : α) (xs ys : List (α × β)) :
    (xs ++ ys).lookup k = ((xs.lookup k).or (ys.lookup k)) := by
  induction xs with
  | nil => simp [List.lookup]
  | cons kv t ih =>
    obtain ⟨k1, v1⟩ := kv
    cases hbeq : (k == k1) <;> simp [List.lookup, hbeq, ih]

theorem lookup_map_override (a b : List (String × Json)) (k : String)
    (hb : b.lookup k = none) :
    (a.map (fun kv =>
      match b.lookup kv.1 with
      | some v => (kv.1, v)
      | none => kv)).lookup k = a.lookup k := by
  induction a with
  | nil => rfl
  | cons kv t ih =>
    obtain ⟨k1, v1⟩ := kv
    cases hbeq : (k == k1)
    · cases hlk : b.lookup k1 <;> simp [List.lookup, hlk, hbeq, ih]
    · have hk : k = k1 := eq_of_beq hbeq
      subst hk
      simp [List.lookup, hb, hbeq]

theorem lookup_filter_none (b : List (String × Json)) (p : String × Json → Bool)
    (k : String) (hb : b.lookup k = none) : (b.filter p).lookup k = none := by
  induction b with
  | nil => rfl
  | cons kv t ih =>
    obtain ⟨k1, v1⟩ := kv
    cases hbeq : (k == k1)
    · have ht : t.lookup k = none := by simpa [List.lookup, hbeq] using hb
      by_cases hp : p (k1, v1) = true <;>
        simp [List.filter, hp, List.lookup, hbeq, ih ht]
    · simp [List.lookup, hbeq] at hb

theorem spreadExtras_lookup_patch_none (a b : List (String × Json)) (k : String)
    (hb : b.lookup k = none) : (spreadExtras a b).lookup k = a.lookup k := by
  unfold spreadExtras
  rw [lookup_append, lookup_map_override a b k hb,
    lookup_filter_none b _ k hb]
  cases a.lookup k <;> rfl

/-- C3 (counterexample): the store does not enforce contiguity of
`ayahNumber`s — caching a surah whose upstream response contained a
single verse numbered 5 (which passes every zod check) makes the surah
cached, yet `getCachedSurah` returns `[5]`, which is not contiguous
starting at 1. -/
theorem getCachedSurah_gap_counterexample :
    isSurahCached (cacheAyahs [] [gapAyah]) 1 = true
    ∧ ¬ contiguousFromOne
        ((getCachedSurah (cacheAyahs [] [gapAyah]) 1).map Ayah.ayahNumber) := by
  refine ⟨rfl, ?_⟩
  show ¬ contiguousFromOne [5]
  unfold contiguousFromOne
  decide

/-- C3 (amended): for a store whose composite keys are unique — an
invariant `putAyah` maintains — `getCachedSurah(N)` returns verses
sorted strictly ascending by `ayahNumber` with no duplicates; contiguity
from 1 is not guaranteed. -/
theorem getCachedSurah_strictly_ascending (store : List Ayah) (surahNumber : Nat)
    (hkeys : (store.map ayahKey).Nodup) :
    (getCachedSurah store surahNumber).Pairwise
      (fun a b => a.ayahNumber < b.ayahNumber) := by
  have hkeys' : store.Pairwise (fun a b => ayahKey a ≠ ayahKey b) :=
    List.pairwise_map.mp hkeys
  have hfilter : (store.filter (fun a => decide (a.surahNumber = surahNumber))).Pairwise
      (fun a b => ayahKey a ≠ ayahKey b) := hkeys'.filter _
  have hperm := List.perm_insertionSort (fun a b : Ayah => a.ayahNumber ≤ b.ayahNumber)
      (store.filter (fun a => decide (a.surahNumber = surahNumber)))
  have hne : (getCachedSurah store surahNumber).Pairwise
      (fun a b => ayahKey a ≠ ayahKey b) := by
    unfold getCachedSurah
    exact (hperm.pairwise_iff (fun h he => h he.symm)).mpr hfilter
  have hsorted : (getCachedSurah store surahNumber).Pairwise
      (fun a b : Ayah => a.ayahNumber ≤ b.ayahNumber) := by
    unfold getCachedSurah
    exact List.sorted_insertionSort _ _
  have hmem : ∀ a ∈ getCachedSurah store surahNumber, a.surahNumber = surahNumber := by
    intro a ha
    have hmf : a ∈ store.filter (fun a => decide (a.surahNumber = surahNumber)) := by
      unfold getCachedSurah at ha
      exact hperm.subset ha
    exact of_decide_eq_true (List.mem_filter.mp hmf).2
  refine List.Pairwise.imp_of_mem ?_ (hsorted.and hne)
  intro a b hma hmb hab
  refine lt_of_le_of_ne hab.1 ?_
  intro heq
  exact hab.2 (by unfold ayahKey; rw [hmem a hma, hmem b hmb, heq])

/-- Witness for the amended C3 on a concrete two-verse store. -/
theorem getCachedSurah_strictly_ascending_witness :
    (getCachedSurah [sampleAyah2, sampleAyah] 1).Pairwise
      (fun a b => a.ayahNumber < b.ayahNumber) :=
  getCachedSurah_strictly_ascending [sampleAyah2, sampleAyah] 1 (by decide)

/-- C7: search on the cached verses returns `[]` for a query that is
empty after lowercasing and trimming; otherwise an ayah is in the result
iff it is among the inputs and the selected language's text field
(lowercased) contains the normalized query as a substring — no other
field is inspected — and the result is sorted ascending by
`globalAyahNumber`. -/
theorem searchAyahs_contract (ayahs : List Ayah) (query : String) (language : SearchLang) :
    (jsTrim (jsToLower query) = "" → searchAyahs ayahs query language = [])
    ∧ (jsTrim (jsToLower query) ≠ "" →
        ∀ a, a ∈ searchAyahs ayahs query language ↔
          a ∈ ayahs ∧ ayahMatches (jsTrim (jsToLower query)) language a = true)
    ∧ (searchAyahs ayahs query language).Pairwise
        (fun a b => a.globalAyahNumber ≤ b.globalAyahNumber) := by
  refine ⟨?_, ?_, ?_⟩
  · intro h
    simp only [searchAyahs]
    rw [if_pos h]
  · intro h a
    simp only [searchAyahs]
    rw [if_neg h]
    constructor
    · intro ha
      exact List.mem_filter.mp
        ((List.perm_insertionSort
          (fun a b : Ayah => a.globalAyahNumber ≤ b.globalAyahNumber) _).subset ha)
    · intro hmem
      exact (List.perm_insertionSort
          (fun a b : Ayah => a.globalAyahNumber ≤ b.globalAyahNumber) _).mem_iff.mpr
        (List.mem_filter.mpr hmem)
  · simp only [searchAyahs]
    by_cases h : jsTrim (jsToLower query) = ""
    · rw [if_pos h]
      exact List.Pairwise.nil
    · rw [if_neg h]
      exact List.sorted_insertionSort _ _

/-- Witness for C7: a whitespace-only query returns `[]`, and on a
one-verse store the membership characterization holds at a concrete
mixed-case query. -/
theorem searchAyahs_contract_witness :
    searchAyahs [sampleAyah] "   " SearchLang.en = []
    ∧ (sampleAyah ∈ searchAyahs [sampleAyah] "  NAME " SearchLang.en ↔
        sampleAyah ∈ [sampleAyah]
          ∧ ayahMatches (jsTrim (jsToLower "  NAME ")) SearchLang.en sampleAyah = true) :=
  ⟨(searchAyahs_contract [sampleAyah] "   " SearchLang.en).1 rfl,
   (searchAyahs_contract [sampleAyah] "  NAME " SearchLang.en).2.1 (by decide) sampleAyah⟩

/-- C9: when the merged record validates, `updateSettings` saves exactly
the merge of the current settings with the partial object: every field
absent from the partial object keeps its prior value (the `custom_*`
extension keys included), and every field named in it gets the given
value. -/
theorem updateSettings_merge_frame (store : Option Settings) (p : PartialSettings)
    (h : validSettingsB (mergeSettings (getSettings store) p) = true) :
    updateSettings store p = .ok (some (mergeSettings (getSettings store) p))
    ∧ (p.language = none →
        (mergeSettings (getSettings store) p).language = (getSettings store).language)
    ∧ (∀ v, p.language = some v → (mergeSettings (getSettings store) p).language = v)
    ∧ (p.showTranslations = none →
        (mergeSettings (getSettings store) p).showTranslations
          = (getSettings store).showTranslations)
    ∧ (∀ v, p.showTranslations = some v →
        (mergeSettings (getSettings store) p).showTranslations = v)
    ∧ (p.fontSizePx = none →
        (mergeSettings (getSettings store) p).fontSizePx = (getSettings store).fontSizePx)
    ∧ (∀ v, p.fontSizePx = some v → (mergeSettings (getSettings store) p).fontSizePx = v)
    ∧ (p.theme = none →
        (mergeSettings (getSettings store) p).theme = (getSettings store).theme)
    ∧ (∀ v, p.theme = some v → (mergeSettings (getSettings store) p).theme = v)
    ∧ (p.preferredReciter = none →
        (mergeSettings (getSettings store) p).preferredReciter
          = (getSettings store).preferredReciter)
    ∧ (∀ v, p.preferredReciter = some v →
        (mergeSettings (getSettings store) p).preferredReciter = v)
    ∧ (p.playbackSpeed = none →
        (mergeSettings (getSettings store) p).playbackSpeed
          = (getSettings store).playbackSpeed)
    ∧ (∀ v, p.playbackSpeed = some v →
        (mergeSettings (getSettings store) p).playbackSpeed = v)
    ∧ (∀ k, p.extras.lookup k = none →
        (mergeSettings (getSettings store) p).extras.lookup k
          = (getSettings store).extras.lookup k) := by
  refine ⟨?_, ?_, ?_, ?_, ?_, ?_, ?_, ?_, ?_, ?_, ?_, ?_, ?_, ?_⟩
  · unfold updateSettings
    simp [h]
  · intro hp; simp [mergeSettings, hp]
  · intro v hp; simp [mergeSettings, hp]
  · intro hp; simp [mergeSettings, hp]
  · intro v hp; simp [mergeSettings, hp]
  · intro hp; simp [mergeSettings, hp]
  · intro v hp; simp [mergeSettings, hp]
  · intro hp; simp [mergeSettings, hp]
  · intro v hp; simp [mergeSettings, hp]
  · intro hp; simp [mergeSettings, hp]
  · intro v hp; simp [mergeSettings, hp]
  · intro hp; simp [mergeSettings, hp]
  · intro v hp; simp [mergeSettings, hp]
  · intro k hk
    simp only [mergeSettings]
    exact spreadExtras_lookup_patch_none _ _ k hk

/-- Witness for C9: the spec's example `updateSettings({fontSizePx: 30})`
from the defaults sets `fontSizePx` and leaves `language` untouched. -/
theorem updateSettings_merge_frame_witness :
    (mergeSettings (getSettings none) p30).fontSizePx = 30
    ∧ (mergeSettings (getSettings none) p30).language = SettingsLanguage.en
    ∧ updateSettings none p30 = .ok (some (mergeSettings (getSettings none) p30)) :=
  ⟨(updateSettings_merge_frame none p30 rfl).2.2.2.2.2.2.1 30 rfl,
   ((updateSettings_merge_frame none p30 rfl).2.1 rfl).trans rfl,
   (updateSettings_merge_frame none p30 rfl).1⟩

theorem bookmarkFromJson_bookmarkToJson (isDatetime : String → Bool) (b : Bookmark)
    (h1 : 1 ≤ b.surahNumber) (h2 : b.surahNumber ≤ 114) (h3 : 1 ≤ b.ayahNumber)
    (h4 : isDatetime b.timestamp = true) :
    bookmarkFromJson isDatetime (bookmarkToJson b) = some b := by
  simp [bookmarkFromJson, bookmarkToJson, List.lookup, Rat.den_natCast,
    Rat.num_natCast, Int.toNat_natCast, h4]
  exact ⟨h1, h2, by omega⟩

theorem mapM_bookmarkFromJson_roundtrip (isDatetime : String → Bool) (l : List Bookmark)
    (h : ∀ b ∈ l, 1 ≤ b.surahNumber ∧ b.surahNumber ≤ 114 ∧ 1 ≤ b.ayahNumber
        ∧ isDatetime b.timestamp = true) :
    (l.map bookmarkToJson).mapM (bookmarkFromJson isDatetime) = some l := by
  induction l with
  | nil => rfl
  | cons b t ih =>
    have hb := h b (List.mem_cons_self b t)
    have ht := fun x hx => h x (List.mem_cons_of_mem b hx)
    rw [List.map_cons, List.mapM_cons,
      bookmarkFromJson_bookmarkToJson isDatetime b hb.1 hb.2.1 hb.2.2.1 hb.2.2.2,
      ih ht]
    rfl

/-- C6: for a stored bookmark set with unique keys (the store's keying
invariant) whose records satisfy the bookmark schema,
`importBookmarks(exportBookmarks())` succeeds and restores exactly the
exported set — the same `(surahNumber, ayahNumber)` keys and the same
timestamps, nothing more and nothing less (a permutation of the stored
set). -/
theorem importBookmarks_exportBookmarks_roundtrip (dateMillis : String → Int)
    (isDatetime : String → Bool) (store other : List Bookmark)
    (hval : ∀ b ∈ store, 1 ≤ b.surahNumber ∧ b.surahNumber ≤ 114 ∧ 1 ≤ b.ayahNumber
        ∧ isDatetime b.timestamp = true)
    (hkeys : (store.map bookmarkKey).Nodup) :
    importBookmarks isDatetime (some (exportBookmarks dateMillis store)) other
        = .ok (getBookmarks dateMillis store)
    ∧ (getBookmarks dateMillis store).Perm store := by
  have hperm : (getBookmarks dateMillis store).Perm store :=
    List.perm_insertionSort _ _
  refine ⟨?_, hperm⟩
  have hval' : ∀ b ∈ getBookmarks dateMillis store,
      1 ≤ b.surahNumber ∧ b.surahNumber ≤ 114 ∧ 1 ≤ b.ayahNumber
        ∧ isDatetime b.timestamp = true :=
    fun b hb => hval b (hperm.subset hb)
  have hmap := mapM_bookmarkFromJson_roundtrip isDatetime (getBookmarks dateMillis store) hval'
  have hkeys' : ((getBookmarks dateMillis store).map bookmarkKey).Nodup :=
    ((hperm.map bookmarkKey).nodup_iff).mpr hkeys
  have hbj : bookmarksFromJson isDatetime (exportBookmarks dateMillis store)
      = some (getBookmarks dateMillis store) := hmap
  unfold importBookmarks
  rw [Option.some_bind, hbj]
  exact if_pos hkeys'

/-- Witness for C6 on a one-bookmark store. -/
theorem importBookmarks_exportBookmarks_roundtrip_witness :
    importBookmarks isoDatetimeExample
        (some (exportBookmarks (fun _ => 0) [bkSample])) []
      = .ok [bkSample] :=
  (importBookmarks_exportBookmarks_roundtrip (fun _ => 0) isoDatetimeExample
    [bkSample] [] (by decide) (by decide)).1

theorem exists_of_mapM_eq_some {α β : Type} {f : α → Option β} :
    ∀ {l : List α} {l' : List β}, l.mapM f = some l' → ∀ b ∈ l', ∃ a ∈ l, f a = some b := by
  intro l
  induction l with
  | nil =>
    intro l' h b hb
    rw [List.mapM_nil] at h
    cases h
    simp at hb
  | cons a t ih =>
    intro l' h b hb
    rw [List.mapM_cons] at h
    cases hfa : f a with
    | none => rw [hfa] at h; simp at h
    | some x =>
      rw [hfa] at h
      cases hmt : t.mapM f with
      | none => rw [hmt] at h; simp at h
      | some xs =>
        rw [hmt] at h
        simp at h
        subst h
        rcases List.mem_cons.mp hb with rfl | hb'
        · exact ⟨a, List.mem_cons_self a t, hfa⟩
        · obtain ⟨a', ha', hfa'⟩ := ih hmt b hb'
          exact ⟨a', List.mem_cons_of_mem a ha', hfa'⟩

theorem snd_mem_of_mem_enum {α : Type} {l : List α} {p : Nat × α}
    (h : p ∈ l.enum) : p.2 ∈ l := by
  obtain ⟨i, x⟩ := p
  obtain ⟨-, hlt, hx⟩ := List.mem_enumFrom h
  show x ∈ l
  rw [hx]
  exact List.getElem_mem _

theorem editionDroppedB_data_none (isUrl : String → Bool) (e : EditionResp)
    (h : editionDroppedB isUrl e = true) : optionalEditionData isUrl e = none := by
  unfold editionDroppedB at h
  unfold optionalEditionData readJson
  by_cases hok : e.ok = true
  · rw [if_pos hok]
    cases hb : e.body with
    | none => rfl
    | some v =>
      cases v with
      | none => rfl
      | some r =>
        rw [hok, hb] at h
        simp only [Bool.not_true, Bool.false_or] at h
        have hz : zodSurahOk isUrl r = false := by
          cases hzz : zodSurahOk isUrl r
          · rfl
          · rw [hzz] at h
            simp at h
        simp [safeParseSurah, hz]
  · rw [if_neg hok]
    rfl

/-- Elimination principle for a successful `fetchSurah` run: the Arabic
body parsed to some ayah list `l`, every element of the result arose
from `normalizeAyah` applied to an element of `l` together with the
per-index data of the optional editions, and the result is the sorted
normalized list. -/
theorem fetchSurah_ok_elim (strip : String → String) (isUrl : String → Bool)
    (surahNumber : Nat) (arabic english urdu audio : EditionResp) (ayahs : List Ayah)
    (h : fetchSurah strip isUrl surahNumber arabic english urdu audio = .ok ayahs) :
    ∃ l norm, arabic.body = some (some l)
      ∧ l.enum.mapM (fun p =>
          normalizeAyah strip isUrl p.2 surahNumber
            (((optionalEditionData isUrl english).bind (fun es => es.get? p.1)).map ApiAyah.text)
            (((optionalEditionData isUrl urdu).bind (fun us => us.get? p.1)).map ApiAyah.text)
            (((optionalEditionData isUrl audio).bind (fun aus => aus.get? p.1)).bind ApiAyah.audio))
        = some norm
      ∧ ayahs = List.insertionSort (fun a b => a.ayahNumber ≤ b.ayahNumber) norm := by
  unfold fetchSurah fetchSurahAux at h
  by_cases hok : arabic.ok = false
  · rw [if_pos hok] at h
    simp at h
  · rw [if_neg hok] at h
    cases hra : readJson arabic with
    | error u => rw [hra] at h; simp at h
    | ok rawArabicData =>
      rw [hra] at h
      cases hre : readJson english with
      | error u => rw [hre] at h; simp at h
      | ok rawEnglishData =>
        rw [hre] at h
        cases hru : readJson urdu with
        | error u => rw [hru] at h; simp at h
        | ok rawUrduData =>
          rw [hru] at h
          cases hrau : readJson audio with
          | error u => rw [hrau] at h; simp at h
          | ok rawAudioData =>
            rw [hrau] at h
            have hEng : optionalEditionData isUrl english
                = rawEnglishData.bind (safeParseSurah isUrl) := by
              unfold optionalEditionData
              rw [hre]
            have hUrd : optionalEditionData isUrl urdu
                = rawUrduData.bind (safeParseSurah isUrl) := by
              unfold optionalEditionData
              rw [hru]
            have hAud : optionalEditionData isUrl audio
                = rawAudioData.bind (safeParseSurah isUrl) := by
              unfold optionalEditionData
              rw [hrau]
            dsimp only [] at h
            cases rawArabicData with
            | none => simp at h
            | some v =>
              cases v with
              | none => simp at h
              | some l =>
                dsimp only [] at h
                by_cases hz : zodSurahOk isUrl l = true
                · rw [if_pos hz] at h
                  cases hm : l.enum.mapM (fun p =>
                      normalizeAyah strip isUrl p.2 surahNumber
                        ((rawEnglishData.bind (safeParseSurah isUrl)).bind
                            (fun es => es.get? p.1) |>.map ApiAyah.text)
                        ((rawUrduData.bind (safeParseSurah isUrl)).bind
                            (fun us => us.get? p.1) |>.map ApiAyah.text)
                        ((rawAudioData.bind (safeParseSurah isUrl)).bind
                            (fun aus => aus.get? p.1) |>.bind ApiAyah.audio)) with
                  | none => rw [hm] at h; simp at h
                  | some norm =>
                    rw [hm] at h
                    simp at h
                    refine ⟨l, norm, ?_, ?_, h.symm⟩
                    · have hok' : arabic.ok = true := by
                        cases hv : arabic.ok
                        · exact absurd hv hok
                        · rfl
                      unfold readJson at hra
                      rw [if_pos hok'] at hra
                      cases hab : arabic.body with
                      | none => rw [hab] at hra; simp at hra
                      | some w =>
                        rw [hab] at hra
                        simp at hra
                        rw [hra]
                    · rw [hEng, hUrd, hAud]
                      exact hm
                · rw [if_neg hz] at h
                  simp at h

/-- C4 (amended): the Arabic edition is mandatory — a non-OK Arabic
HTTP response aborts the whole fetch with `E_API_FETCH` — while a
failure or unparseable shape of the English or Urdu edition leaves the
corresponding text field empty (`some ""`) on every resulting ayah; a
failure of the audio edition, however, makes `audioUrl` fall back to
the Arabic edition's own `audio` field, so it ends up empty only when
the Arabic response carries no audio either. -/
theorem fetchSurah_edition_contract (strip : String → String) (isUrl : String → Bool)
    (surahNumber : Nat) (arabic english urdu audio : EditionResp) :
    (arabic.ok = false →
      fetchSurah strip isUrl surahNumber arabic english urdu audio
        = .error (createError "E_API_FETCH"
            ("Failed to fetch Surah " ++ toString surahNumber) true))
    ∧ (∀ ayahs, editionDroppedB isUrl english = true →
        fetchSurah strip isUrl surahNumber arabic english urdu audio = .ok ayahs →
        ∀ a ∈ ayahs, a.englishText = some "")
    ∧ (∀ ayahs, editionDroppedB isUrl urdu = true →
        fetchSurah strip isUrl surahNumber arabic english urdu audio = .ok ayahs →
        ∀ a ∈ ayahs, a.urduText = some "")
    ∧ (∀ ayahs, editionDroppedB isUrl audio = true →
        (∀ l r, arabic.body = some (some l) → r ∈ l → r.audio = none) →
        fetchSurah strip isUrl surahNumber arabic english urdu audio = .ok ayahs →
        ∀ a ∈ ayahs, a.audioUrl = none) := by
  refine ⟨?_, ?_, ?_, ?_⟩
  · intro hok
    unfold fetchSurah fetchSurahAux
    rw [if_pos hok]
  · intro ayahs hdrop hfetch a ha
    obtain ⟨l, norm, hbody, hmapM, hsort⟩ :=
      fetchSurah_ok_elim strip isUrl surahNumber arabic english urdu audio ayahs hfetch
    rw [editionDroppedB_data_none isUrl english hdrop] at hmapM
    have hmem : a ∈ norm := by
      subst hsort
      exact (List.perm_insertionSort _ _).subset ha
    obtain ⟨p, hp, hnorm⟩ := exists_of_mapM_eq_some hmapM a hmem
    simp only [Option.none_bind, Option.map_none'] at hnorm
    simp only [normalizeAyah] at hnorm
    split at hnorm
    · cases hnorm
      simp [sanitizeText]
    · cases hnorm
  · intro ayahs hdrop hfetch a ha
    obtain ⟨l, norm, hbody, hmapM, hsort⟩ :=
      fetchSurah_ok_elim strip isUrl surahNumber arabic english urdu audio ayahs hfetch
    rw [editionDroppedB_data_none isUrl urdu hdrop] at hmapM
    have hmem : a ∈ norm := by
      subst hsort
      exact (List.perm_insertionSort _ _).subset ha
    obtain ⟨p, hp, hnorm⟩ := exists_of_mapM_eq_some hmapM a hmem
    simp only [Option.none_bind, Option.map_none'] at hnorm
    simp only [normalizeAyah] at hnorm
    split at hnorm
    · cases hnorm
      simp [sanitizeText]
    · cases hnorm
  · intro ayahs hdrop harabic hfetch a ha
    obtain ⟨l, norm, hbody, hmapM, hsort⟩ :=
      fetchSurah_ok_elim strip isUrl surahNumber arabic english urdu audio ayahs hfetch
    rw [editionDroppedB_data_none isUrl audio hdrop] at hmapM
    have hmem : a ∈ norm := by
      subst hsort
      exact (List.perm_insertionSort _ _).subset ha
    obtain ⟨p, hp, hnorm⟩ := exists_of_mapM_eq_some hmapM a hmem
    simp only [Option.none_bind] at hnorm
    simp only [normalizeAyah] at hnorm
    split at hnorm
    · cases hnorm
      simp only [jsOrOptStr]
      exact harabic l p.2 hbody (snd_mem_of_mem_enum hp)
    · cases hnorm

/-- C4 (counterexample): the audio edition fails, yet the resulting
ayah's `audioUrl` is not empty — `normalizeAyah` falls back to the
Arabic edition's `audio` field (`audioUrl || apiAyah.audio`), so the
claim that a failed audio edition leaves the field empty is false. -/
theorem fetchSurah_audio_fallback_counterexample :
    fetchSurah (fun s => s) (fun _ => true) 1 arabicWithAudio editionDown editionDown editionDown
      = .ok [{ surahNumber := 1, ayahNumber := 1, globalAyahNumber := 1,
               arabicText := "bismillah", englishText := some "", urduText := some "",
               audioUrl := some "https://cdn.example/1.mp3", juzNumber := 1,
               pageNumber := some 1 }] := rfl

/-- Witness for the amended C4: a failed Arabic edition aborts with
`E_API_FETCH`; on a concrete run with every optional edition down and an
Arabic response without audio, the produced ayah has empty English text
and an empty audio URL. -/
theorem fetchSurah_edition_contract_witness :
    fetchSurah (fun s => s) (fun _ => true) 7 editionDown editionDown editionDown editionDown
        = .error (createError "E_API_FETCH" "Failed to fetch Surah 7" true)
    ∧ fallbackFreeAyah.englishText = some ""
    ∧ fallbackFreeAyah.audioUrl = none := by
  refine ⟨(fetchSurah_edition_contract (fun s => s) (fun _ => true) 7
    editionDown editionDown editionDown editionDown).1 rfl, ?_, ?_⟩
  · exact (fetchSurah_edition_contract (fun s => s) (fun _ => true) 1
      arabicNoAudio editionDown editionDown editionDown).2.1
      [fallbackFreeAyah] rfl rfl fallbackFreeAyah (List.mem_singleton.mpr rfl)
  · refine (fetchSurah_edition_contract (fun s => s) (fun _ => true) 1
      arabicNoAudio editionDown editionDown editionDown).2.2.2
      [fallbackFreeAyah] rfl ?_ rfl fallbackFreeAyah (List.mem_singleton.mpr rfl)
    intro l r hl hr
    have hl' : (some (some [arabicNoAudioAyah]) : Option (Option (List ApiAyah)))
        = some (some l) := hl
    injection hl' with h1
    injection h1 with h2
    rw [← h2] at hr
    simp at hr
    rw [hr]
    rfl

theorem parseCsvRow_bookmark_bounds (nowIso : String) (i : Nat) (rawLine : String)
    (b : CsvBookmark) (h : parseCsvRow nowIso i rawLine = .bookmark b) :
    1 ≤ b.surahNumber ∧ b.surahNumber ≤ 114 ∧ 1 ≤ b.ayahNumber ∧ b.ayahNumber ≤ 286 := by
  simp only [parseCsvRow] at h
  split at h
  · cases h
  · split at h
    · cases h
    · split at h
      · cases h
      · cases h
        rename_i hs ha
        refine ⟨?_, ?_, ?_, ?_⟩ <;> (dsimp only; omega)

theorem parseCsvRow_blank_iff (nowIso : String) (i : Nat) (rawLine : String) :
    parseCsvRow nowIso i rawLine = .blank ↔ jsTrim rawLine = "" := by
  constructor
  · intro h
    by_contra h0
    simp only [parseCsvRow] at h
    rw [if_neg h0] at h
    split at h
    · cases h
    · split at h
      · cases h
      · cases h
  · intro h0
    simp [parseCsvRow, h0]

theorem csvRows_sound (nowIso : String) :
    ∀ (i : Nat) (lines : List String), ∀ b ∈ (csvRows nowIso i lines).1,
      1 ≤ b.surahNumber ∧ b.surahNumber ≤ 114 ∧ 1 ≤ b.ayahNumber ∧ b.ayahNumber ≤ 286 := by
  intro i lines
  induction lines generalizing i with
  | nil => simp [csvRows]
  | cons rawLine rest ih =>
    intro b hb
    simp only [csvRows] at hb
    cases hrow : parseCsvRow nowIso i rawLine with
    | blank =>
      rw [hrow] at hb
      exact ih (i + 1) b hb
    | rowError msg =>
      rw [hrow] at hb
      exact ih (i + 1) b hb
    | bookmark b0 =>
      rw [hrow] at hb
      rcases List.mem_cons.mp hb with he | ht
      · subst he
        exact parseCsvRow_bookmark_bounds nowIso i rawLine b hrow
      · exact ih (i + 1) b ht

theorem csvRows_count (nowIso : String) :
    ∀ (i : Nat) (lines : List String),
      (csvRows nowIso i lines).1.length + (csvRows nowIso i lines).2.length
        = (lines.filter (fun l => !(jsTrim l == ""))).length := by
  intro i lines
  induction lines generalizing i with
  | nil => rfl
  | cons rawLine rest ih =>
    simp only [csvRows]
    by_cases h0 : jsTrim rawLine = ""
    · have hrow : parseCsvRow nowIso i rawLine = .blank :=
        (parseCsvRow_blank_iff nowIso i rawLine).mpr h0
      rw [hrow]
      simp [List.filter, h0, ih (i + 1)]
    · cases hrow : parseCsvRow nowIso i rawLine with
      | blank => exact absurd ((parseCsvRow_blank_iff nowIso i rawLine).mp hrow) h0
      | rowError msg =>
        have hf : (jsTrim rawLine == "") = false := by
          cases hc : jsTrim rawLine == ""
          · rfl
          · exact absurd (eq_of_beq hc) h0
        simp [List.filter, hf]
        have := ih (i + 1)
        omega
      | bookmark b0 =>
        have hf : (jsTrim rawLine == "") = false := by
          cases hc : jsTrim rawLine == ""
          · rfl
          · exact absurd (eq_of_beq hc) h0
        simp [List.filter, hf]
        have := ih (i + 1)
        omega

theorem bookmarkFromJson_csvBookmarkToJson (isDatetime : String → Bool) (cb : CsvBookmark)
    (h1 : 1 ≤ cb.surahNumber) (h2 : cb.surahNumber ≤ 114) (h3 : 1 ≤ cb.ayahNumber)
    (h4 : isDatetime cb.timestamp = true) :
    bookmarkFromJson isDatetime (csvBookmarkToJson cb)
      = some { surahNumber := cb.surahNumber, ayahNumber := cb.ayahNumber,
               timestamp := cb.timestamp } := by
  cases hn : cb.notes <;>
  · simp [bookmarkFromJson, csvBookmarkToJson, hn, List.lookup, Rat.den_natCast,
      Rat.num_natCast, Int.toNat_natCast, h4]
    exact ⟨h1, h2, by omega⟩

theorem mapM_eq_none_of_mem {α β : Type} {f : α → Option β} :
    ∀ {l : List α}, (∃ a ∈ l, f a = none) → l.mapM f = none := by
  intro l
  induction l with
  | nil =>
    rintro ⟨a, ha, -⟩
    simp at ha
  | cons a t ih =>
    rintro ⟨b, hb, hfb⟩
    rw [List.mapM_cons]
    rcases List.mem_cons.mp hb with rfl | hb'
    · rw [hfb]
      rfl
    · cases hfa : f a
      · rfl
      · rw [ih ⟨b, hb', hfb⟩]
        rfl

theorem bookmarkFromJson_csvBookmarkToJson_none (isDatetime : String → Bool)
    (cb : CsvBookmark) (h4 : isDatetime cb.timestamp = false) :
    bookmarkFromJson isDatetime (csvBookmarkToJson cb) = none := by
  cases hn : cb.notes <;>
    simp [bookmarkFromJson, csvBookmarkToJson, hn, List.lookup, h4]

theorem mapM_bookmarkFromJson_csv (isDatetime : String → Bool) (l : List CsvBookmark)
    (h : ∀ cb ∈ l, 1 ≤ cb.surahNumber ∧ cb.surahNumber ≤ 114 ∧ 1 ≤ cb.ayahNumber
        ∧ isDatetime cb.timestamp = true) :
    (l.map csvBookmarkToJson).mapM (bookmarkFromJson isDatetime)
      = some (l.map (fun cb =>
          { surahNumber := cb.surahNumber, ayahNumber := cb.ayahNumber,
            timestamp := cb.timestamp })) := by
  induction l with
  | nil => rfl
  | cons cb t ih =>
    have hb := h cb (List.mem_cons_self cb t)
    have ht := fun x hx => h x (List.mem_cons_of_mem cb hx)
    simp only [List.map_cons]
    rw [List.mapM_cons,
      bookmarkFromJson_csvBookmarkToJson isDatetime cb hb.1 hb.2.1 hb.2.2.1 hb.2.2.2,
      ih ht]
    rfl

/-- C8 (amended): every CSV row whose surah number is outside 1–114 is
rejected, counted as an error, and excluded from the parsed set (every
parsed bookmark has surah 1–114 and ayah 1–286; per row, one bookmark
or one error is produced); if zero rows validate, the import fails with
the first encountered error and performs no store write.  If at least
one row validates, the outcome is decided by the JSON import the parsed
rows are funnelled through: when every surviving timestamp passes the
bookmark schema's datetime check and the surviving keys are distinct,
the import succeeds with exactly the valid rows; when some surviving
timestamp fails that check, the whole import fails with
`E_INVALID_IMPORT`; when the timestamps pass but two surviving rows
share a `(surah, ayah)` key, the `add`-transaction aborts and the
whole run fails with `E_IMPORT_FAILED` — so the claim's "provided at least
one row validates" alone does not guarantee success (see the
counterexample). -/
theorem csvImport_contract (isDatetime : String → Bool) (nowIso text : String)
    (store : List Bookmark) :
    (∀ b ∈ (csvToBookmarks nowIso text).bookmarks,
        1 ≤ b.surahNumber ∧ b.surahNumber ≤ 114 ∧ 1 ≤ b.ayahNumber ∧ b.ayahNumber ≤ 286)
    ∧ (∀ (i : Nat) (lines : List String),
        (csvRows nowIso i lines).1.length + (csvRows nowIso i lines).2.length
          = (lines.filter (fun l => !(jsTrim l == ""))).length)
    ∧ ((csvToBookmarks nowIso text).bookmarks = [] →
        (csvToBookmarks nowIso text).errors ≠ [] →
        handleImportCSV isDatetime nowIso text store
          = .error (.plainError ((csvToBookmarks nowIso text).errors.getD 0 "")))
    ∧ ((csvToBookmarks nowIso text).bookmarks ≠ [] →
        (∀ b ∈ (csvToBookmarks nowIso text).bookmarks, isDatetime b.timestamp = true) →
        ((csvToBookmarks nowIso text).bookmarks.map
            (fun cb => (cb.surahNumber, cb.ayahNumber))).Nodup →
        handleImportCSV isDatetime nowIso text store
          = .ok ((csvToBookmarks nowIso text).bookmarks.map
              (fun cb => { surahNumber := cb.surahNumber, ayahNumber := cb.ayahNumber,
                           timestamp := cb.timestamp })))
    ∧ ((csvToBookmarks nowIso text).bookmarks ≠ [] →
        (∃ b ∈ (csvToBookmarks nowIso text).bookmarks, isDatetime b.timestamp = false) →
        handleImportCSV isDatetime nowIso text store
          = .error (.appError
              (createError "E_INVALID_IMPORT" "Invalid bookmark data format" false)))
    ∧ ((csvToBookmarks nowIso text).bookmarks ≠ [] →
        (∀ b ∈ (csvToBookmarks nowIso text).bookmarks, isDatetime b.timestamp = true) →
        ¬ ((csvToBookmarks nowIso text).bookmarks.map
            (fun cb => (cb.surahNumber, cb.ayahNumber))).Nodup →
        handleImportCSV isDatetime nowIso text store
          = .error (.appError
              (createError "E_IMPORT_FAILED" "Failed to import bookmarks" true))) := by
  have hsound : ∀ b ∈ (csvToBookmarks nowIso text).bookmarks,
      1 ≤ b.surahNumber ∧ b.surahNumber ≤ 114 ∧ 1 ≤ b.ayahNumber ∧ b.ayahNumber ≤ 286 := by
    intro b hb
    simp only [csvToBookmarks] at hb
    split at hb
    · simp at hb
    · split at hb
      · simp at hb
      · split at hb
        · simp at hb
        · exact csvRows_sound nowIso 1 _ b hb
  refine ⟨hsound, csvRows_count nowIso, ?_, ?_, ?_, ?_⟩
  · intro h1 h2
    simp only [handleImportCSV]
    rw [if_pos ⟨List.length_pos.mpr h2, by rw [h1]; rfl⟩]
  · intro hne hts hnd
    simp only [handleImportCSV]
    rw [if_neg (fun hcon => hne (List.length_eq_zero.mp hcon.2))]
    rw [if_neg (fun hcon => hne (List.length_eq_zero.mp hcon))]
    have hbj : bookmarksFromJson isDatetime
        (csvBookmarksToJson (csvToBookmarks nowIso text).bookmarks)
        = some ((csvToBookmarks nowIso text).bookmarks.map (fun cb =>
            { surahNumber := cb.surahNumber, ayahNumber := cb.ayahNumber,
              timestamp := cb.timestamp })) :=
      mapM_bookmarkFromJson_csv isDatetime (csvToBookmarks nowIso text).bookmarks
        (fun cb hcb => ⟨(hsound cb hcb).1, (hsound cb hcb).2.1, (hsound cb hcb).2.2.1,
          hts cb hcb⟩)
    unfold importBookmarks
    rw [Option.some_bind, hbj]
    have hkeys : (((csvToBookmarks nowIso text).bookmarks.map (fun cb =>
        ({ surahNumber := cb.surahNumber, ayahNumber := cb.ayahNumber,
           timestamp := cb.timestamp } : Bookmark))).map bookmarkKey).Nodup := by
      rw [List.map_map]
      exact hnd
    dsimp only []
    rw [if_pos hkeys]
  · intro hne hbad
    simp only [handleImportCSV]
    rw [if_neg (fun hcon => hne (List.length_eq_zero.mp hcon.2))]
    rw [if_neg (fun hcon => hne (List.length_eq_zero.mp hcon))]
    obtain ⟨b, hb, hfb⟩ := hbad
    have hbjn : bookmarksFromJson isDatetime
        (csvBookmarksToJson (csvToBookmarks nowIso text).bookmarks) = none :=
      mapM_eq_none_of_mem ⟨csvBookmarkToJson b, List.mem_map_of_mem csvBookmarkToJson hb,
        bookmarkFromJson_csvBookmarkToJson_none isDatetime b hfb⟩
    unfold importBookmarks
    rw [Option.some_bind, hbjn]
  · intro hne hts hnd
    simp only [handleImportCSV]
    rw [if_neg (fun hcon => hne (List.length_eq_zero.mp hcon.2))]
    rw [if_neg (fun hcon => hne (List.length_eq_zero.mp hcon))]
    have hbj : bookmarksFromJson isDatetime
        (csvBookmarksToJson (csvToBookmarks nowIso text).bookmarks)
        = some ((csvToBookmarks nowIso text).bookmarks.map (fun cb =>
            { surahNumber := cb.surahNumber, ayahNumber := cb.ayahNumber,
              timestamp := cb.timestamp })) :=
      mapM_bookmarkFromJson_csv isDatetime (csvToBookmarks nowIso text).bookmarks
        (fun cb hcb => ⟨(hsound cb hcb).1, (hsound cb hcb).2.1, (hsound cb hcb).2.2.1,
          hts cb hcb⟩)
    unfold importBookmarks
    rw [Option.some_bind, hbj]
    have hkeys : ¬ (((csvToBookmarks nowIso text).bookmarks.map (fun cb =>
        ({ surahNumber := cb.surahNumber, ayahNumber := cb.ayahNumber,
           timestamp := cb.timestamp } : Bookmark))).map bookmarkKey).Nodup := by
      rw [List.map_map]
      exact hnd
    dsimp only []
    rw [if_neg hkeys]

/-- C8 (counterexample): in this CSV the `surah=115` row is rejected
and one row (`2,255,later`) validates per the row checks, yet the
whole ingest still fails: the surviving row's timestamp does not
pass the JSON bookmark schema's datetime check inside
`importBookmarks`, so `E_INVALID_IMPORT` is thrown even though at least
one row validated — contradicting the claim's "without failing the
ingest, provided at least one row validates" wording (the claim says
"import"). -/
theorem csvImport_valid_row_still_fails :
    (csvToBookmarks "2024-01-02T00:00:00Z" csvMixedTimestamps).bookmarks.length = 1
    ∧ (csvToBookmarks "2024-01-02T00:00:00Z" csvMixedTimestamps).errors.length = 1
    ∧ handleImportCSV isoDatetimeExample "2024-01-02T00:00:00Z" csvMixedTimestamps []
        = .error (.appError
            (createError "E_INVALID_IMPORT" "Invalid bookmark data format" false)) :=
  ⟨rfl, rfl, rfl⟩

/-- Witness for the amended C8: the `surah=115` row is excluded while
the valid row is imported; an import whose rows all fail validation is
rejected with the first row error; a surviving row with a bad timestamp
fails the whole import with `E_INVALID_IMPORT`; and duplicate surviving
keys fail it with `E_IMPORT_FAILED`. -/
theorem csvImport_contract_witness :
    handleImportCSV isoDatetimeExample "2024-01-02T00:00:00Z" csvSampleGood []
        = .ok [{ surahNumber := 2, ayahNumber := 255,
                 timestamp := "2024-01-01T00:00:00Z" }]
    ∧ handleImportCSV isoDatetimeExample "2024-01-02T00:00:00Z" csvSampleZeroValid []
        = .error (.plainError "Row 2: Invalid surah number (115). Must be 1-114.")
    ∧ handleImportCSV isoDatetimeExample "2024-01-02T00:00:00Z" csvBadTimestamp []
        = .error (.appError
            (createError "E_INVALID_IMPORT" "Invalid bookmark data format" false))
    ∧ handleImportCSV isoDatetimeExample "2024-01-02T00:00:00Z" csvDupRows []
        = .error (.appError
            (createError "E_IMPORT_FAILED" "Failed to import bookmarks" true)) :=
  ⟨(csvImport_contract isoDatetimeExample "2024-01-02T00:00:00Z" csvSampleGood []).2.2.2.1
      (by decide) (by decide) (by decide),
   (csvImport_contract isoDatetimeExample "2024-01-02T00:00:00Z" csvSampleZeroValid []).2.2.1
      rfl (by decide),
   (csvImport_contract isoDatetimeExample "2024-01-02T00:00:00Z" csvBadTimestamp []).2.2.2.2.1
      (by decide) (by decide),
   (csvImport_contract isoDatetimeExample "2024-01-02T00:00:00Z" csvDupRows []).2.2.2.2.2
      (by decide) (by decide) (by decide)⟩

end Quranic
